import Mathlib

/-!
Verification of the CSP-Bypass passive scanner.

The repository analyzes HTTP responses for weaknesses in their
Content-Security-Policy headers.  `burp_csp_bypass.py` holds the rule checks
and the driver; the CSP parser and the domain matcher live in the module
`csp_parser`, whose file is not part of the repository snapshot, so those
definitions are modelled from the specification.  Strings are manipulated
through their character lists so that every definition evaluates inside the
kernel.
-/

/-- Split a character list on a separator character; Python `s.split(sep)`
semantics: n separators produce n+1 (possibly empty) pieces. -/
def splitOnChar (sep : Char) : List Char → List (List Char)
  | [] => [[]]
  | c :: cs =>
    let r := splitOnChar sep cs
    if c = sep then [] :: r
    else
      match r with
      | [] => [[c]]
      | p :: ps => (c :: p) :: ps

/-- Split a character list at every character satisfying `p`, keeping empty
pieces (they are filtered by the callers that need Python `s.split()`). -/
def splitByPred (p : Char → Bool) : List Char → List (List Char)
  | [] => [[]]
  | c :: cs =>
    let r := splitByPred p cs
    if p c then [] :: r
    else
      match r with
      | [] => [[c]]
      | q :: qs => (c :: q) :: qs

/-- Python `s.strip()`: drop leading and trailing whitespace. -/
def trimChars (cs : List Char) : List Char :=
  ((cs.dropWhile Char.isWhitespace).reverse.dropWhile Char.isWhitespace).reverse

/-- Python `s.lower()` (ASCII case folding suffices for header names and
directive names). -/
def pyLower (s : String) : String := ⟨s.data.map Char.toLower⟩

/-- Python `s.split()` with no argument: split on whitespace runs, no empty
pieces. -/
def pyWords (s : String) : List String :=
  ((splitByPred Char.isWhitespace s.data).filter (fun w => w ≠ [])).map
    (fun w => (⟨w⟩ : String))

/-- Python `s.startswith(c)` for a one-character prefix. -/
def pyStartsWith (s : String) (c : Char) : Bool :=
  match s.data with
  | [] => false
  | d :: _ => d = c

/-- Modelled from the spec: the recognized directive set of the CSP parser
(module `csp_parser`, absent from the snapshot).  The spec enumerates
"default-src, script-src, style-src, img-src, connect-src, font-src,
media-src, object-src, frame-src, report-uri, and others"; the test-suite
headers additionally use `child-src`, and the `NO_FALLBACK` names must be
recognized as well. -/
def recognizedDirectives : List String :=
  ["default-src", "script-src", "style-src", "img-src", "connect-src",
   "font-src", "media-src", "object-src", "frame-src", "child-src",
   "base-uri", "form-action", "frame-ancestors", "plugin-types",
   "report-uri", "sandbox"]

/-- Modelled from the spec: the fixed set of directives that never inherit
from `default-src` (spec section 4.1). -/
def NO_FALLBACK : List String :=
  ["base-uri", "form-action", "frame-ancestors", "plugin-types",
   "report-uri", "sandbox"]

/-- Keyword constant `'self'` of `csp_parser`. -/
def SELF : String := "'self'"

/-- Keyword constant `'none'` of `csp_parser`. -/
def NONE : String := "'none'"

/-- Keyword constant `'unsafe-eval'` of `csp_parser`. -/
def UNSAFE_EVAL : String := "'unsafe-eval'"

/-- Keyword constant `'unsafe-inline'` of `csp_parser`. -/
def UNSAFE_INLINE : String := "'unsafe-inline'"

/-- Scheme constant `https:` of `csp_parser`. -/
def HTTPS : String := "https:"

/-- Directive-name constant of `csp_parser`. -/
def SCRIPT_SRC : String := "script-src"

/-- Directive-name constant of `csp_parser`. -/
def STYLE_SRC : String := "style-src"

/-- Directive-name constant of `csp_parser`. -/
def DEFAULT_SRC : String := "default-src"

/-- Modelled from the spec: the parsed policy, a mapping from directive name
to source-token list plus the header name that supplied it. -/
structure ContentSecurityPolicy where
  headerName : String
  directives : List (String × List String)
deriving DecidableEq, Repr

/-- Step 1 and 2 of the parse algorithm: split the header value on `;`,
trim whitespace from each clause, discard empty clauses. -/
def clauses (v : String) : List String :=
  (((splitOnChar ';' v.data).map trimChars).filter (fun c => c ≠ [])).map
    (fun c => (⟨c⟩ : String))

/-- Step 6 of the parse algorithm: record `name -> toks`; a later occurrence
of the same directive overwrites the earlier one (no merge). -/
def insertReplace (m : List (String × List String)) (k : String)
    (v : List String) : List (String × List String) :=
  match m with
  | [] => [(k, v)]
  | (k', v') :: rest =>
    if k' = k then (k, v) :: rest else (k', v') :: insertReplace rest k v

/-- Modelled from the spec: steps 3 to 6 of the parse algorithm, over the
already-split clause list.  Each clause is split on whitespace into the
directive name and its tokens; an unrecognized lowercased name fails the
whole parse with that name as the error. -/
def parseClauses (m : List (String × List String)) :
    List String → Except String (List (String × List String))
  | [] => .ok m
  | c :: cs =>
    match pyWords c with
    | [] => parseClauses m cs
    | name :: toks =>
      if recognizedDirectives.contains (pyLower name) then
        parseClauses (insertReplace m (pyLower name) toks) cs
      else
        .error (pyLower name)

/-- Modelled from the spec: `ContentSecurityPolicy(headerName, headerValue)`,
all-or-nothing construction; a ParseError is the `.error` case. -/
def ContentSecurityPolicy.parse (headerName headerValue : String) :
    Except String ContentSecurityPolicy :=
  (parseClauses [] (clauses headerValue)).map
    (fun m => { headerName := headerName, directives := m })

/-- Modelled from the spec: the membership test (`directive in csp`), true
exactly for explicitly specified directives. -/
def hasDirective (csp : ContentSecurityPolicy) (d : String) : Bool :=
  csp.directives.any (fun p => p.1 = d)

/-- The explicit entry of a directive, when one exists. -/
def getExplicit (csp : ContentSecurityPolicy) (d : String) :
    Option (List String) :=
  (csp.directives.find? (fun p => p.1 = d)).map Prod.snd

/-- Modelled from the spec: the effective lookup (`csp[directive]`): explicit
tokens if present, else `default-src`'s tokens unless the directive is in
`NO_FALLBACK`, else empty. -/
def effective (csp : ContentSecurityPolicy) (d : String) : List String :=
  match getExplicit csp d with
  | some ts => ts
  | none =>
    if NO_FALLBACK.contains d then []
    else
      match getExplicit csp DEFAULT_SRC with
      | some ts => ts
      | none => []

/-- Modelled from the spec: whether the policy came from a deprecated header
name (`X-Content-Security-Policy` / `X-WebKit-CSP`, case-insensitive). -/
def is_deprecated_header (csp : ContentSecurityPolicy) : Bool :=
  pyLower csp.headerName = "x-content-security-policy" ||
    pyLower csp.headerName = "x-webkit-csp"

/-- What follows the first scheme separator `://`, when the token has one. -/
def afterScheme : List Char → Option (List Char)
  | [] => none
  | ':' :: '/' :: '/' :: rest => some rest
  | _ :: cs => afterScheme cs

/-- Modelled from the spec: strip an optional scheme prefix ending in `://`
from a source token (domain matcher step 1); without one the token is the
host part. -/
def stripScheme (cs : List Char) : List Char :=
  (afterScheme cs).getD cs

/-- The dot-separated labels of a source token, after scheme stripping. -/
def srcLabels (src : String) : List String :=
  (splitOnChar '.' (stripScheme src.data)).map (fun l => (⟨l⟩ : String))

/-- Modelled from the spec: one label comparison of the domain matcher: a
policy label `*` matches any bypass label; otherwise the labels must match
case-insensitively and exactly. -/
def labelMatch (t b : String) : Bool :=
  t = "*" || pyLower t = pyLower b

/-- Modelled from the spec: positionwise label comparison; lengths must
match exactly. -/
def labelsMatch : List String → List String → Bool
  | [], [] => true
  | t :: ts, b :: bs => labelMatch t b && labelsMatch ts bs
  | _, [] => false
  | [], _ => false

/-- Modelled from the spec: `csp_match_domains(src, bypassDomainLabels)` of
`csp_parser`: strip an optional scheme, split the host on `.`, and require a
full same-length wildcard-aware label match. -/
def csp_match_domains (src : String) (bypassDomainLabels : List String) :
    Bool :=
  labelsMatch (srcLabels src) bypassDomainLabels

/-- The kinds of findings the analyzer can produce. -/
inductive FindingKind where
  | deprecatedHeader
  | unsafeContentSource
  | wildcardContentSource
  | missingDirective
  | weakDefaultSource
  | knownBypass
deriving DecidableEq, Repr

/-- One detected issue: the fields of the issue objects built by the checks
in `burp_csp_bypass.py` (URL and HTTP handles are opaque reporting data and
are not modelled). -/
structure Finding where
  kind : FindingKind
  directive : Option String
  severity : String
  confidence : String
  bypassDomain : Option (List String)
  payload : Option String
deriving DecidableEq, Repr

/-- `deprecatedHeaderCheck` of `burp_csp_bypass.py`. -/
def deprecatedHeaderCheck (csp : ContentSecurityPolicy) : List Finding :=
  if is_deprecated_header csp then
    [{ kind := .deprecatedHeader, directive := none, severity := "Medium",
       confidence := "Certain", bypassDomain := none, payload := none }]
  else []

/-- `unsafeContentSourceCheck` of `burp_csp_bypass.py`: one High finding per
directive among `script-src`, `style-src` whose effective list holds
`'unsafe-eval'` or `'unsafe-inline'`. -/
def unsafeContentSourceCheck (csp : ContentSecurityPolicy) : List Finding :=
  (([SCRIPT_SRC, STYLE_SRC]).filter (fun d =>
      (effective csp d).contains UNSAFE_EVAL ||
        (effective csp d).contains UNSAFE_INLINE)).map (fun d =>
    { kind := .unsafeContentSource, directive := some d, severity := "High",
      confidence := "Certain", bypassDomain := none, payload := none })

/-- Python `"*" in src`: substring test, which for the one-character needle
`*` is character membership. -/
def containsStar (s : String) : Bool := s.data.contains '*'

/-- `wildcardContentSourceCheck` of `burp_csp_bypass.py`: iterates the
explicit entries of the policy (`csp.iteritems()`) and flags each whose
source list holds a token containing `*`. -/
def wildcardContentSourceCheck (csp : ContentSecurityPolicy) : List Finding :=
  (csp.directives.filter (fun p => p.2.any containsStar)).map (fun p =>
    { kind := .wildcardContentSource, directive := some p.1,
      severity := "Medium", confidence := "Certain", bypassDomain := none,
      payload := none })

/-- `insecureContentSourceCheck` of `burp_csp_bypass.py`: an explicit no-op
stub. -/
def insecureContentSourceCheck (_csp : ContentSecurityPolicy) :
    List Finding := []

/-- `missingDirectiveCheck` of `burp_csp_bypass.py`: one Medium finding per
`NO_FALLBACK` directive with no explicit entry. -/
def missingDirectiveCheck (csp : ContentSecurityPolicy) : List Finding :=
  (NO_FALLBACK.filter (fun d => !hasDirective csp d)).map (fun d =>
    { kind := .missingDirective, directive := some d, severity := "Medium",
      confidence := "Certain", bypassDomain := none, payload := none })

/-- `weakDefaultSourceCheck` of `burp_csp_bypass.py`: sets a flag while
looping over `csp[DEFAULT_SRC]` and appends a single Medium finding when any
token is none of `'self'`, `'none'`, `https:`. -/
def weakDefaultSourceCheck (csp : ContentSecurityPolicy) : List Finding :=
  let weak := (effective csp DEFAULT_SRC).foldl
    (fun w t => w || !([SELF, NONE, HTTPS].contains t)) false
  if weak then
    [{ kind := .weakDefaultSource, directive := none, severity := "Medium",
       confidence := "Certain", bypassDomain := none, payload := none }]
  else []

/-- Python 2 `==` between a `(domain, payload)` tuple and a list of labels:
objects of the two sequence types are never equal (`("a", "b") == ["a", "b"]`
is `False`), whatever their contents. -/
def pyEqEntryLabels (_entry : String × String) (_labels : List String) :
    Bool := false

/-- Python `knownBypasses.index(bypass)`: the index of the first element
equal to `bypass`, or a ValueError when none is. -/
def pyIndexEntry (kb : List (String × String)) (labels : List String) :
    Except String Nat :=
  match kb.findIdx? (fun e => pyEqEntryLabels e labels) with
  | some i => .ok i
  | none => .error "ValueError"

/-- `_bypassMatchDomainsToSrc` of `burp_csp_bypass.py`: the split label
lists of the bypass domains that `csp_match_domains` matches against
`src`. -/
def bypassMatchDomainsToSrc (src : String) (bypassDomains : List String) :
    List (List String) :=
  (bypassDomains.map (fun b =>
      (splitOnChar '.' b.data).map (fun l => (⟨l⟩ : String)))).filter
    (fun labels => csp_match_domains src labels)

/-- The inner loop of `_bypassCheckDirective`: for each matched label list,
look its payload up with `knownBypasses.index(bypass)` and create the issue;
a ValueError aborts with the findings already created. -/
def emitBypasses (directive : String) (kb : List (String × String)) :
    List (List String) → List Finding × Option String
  | [] => ([], none)
  | b :: bs =>
    match pyIndexEntry kb b with
    | .error e => ([], some e)
    | .ok i =>
      let f : Finding :=
        { kind := .knownBypass, directive := some directive,
          severity := "Medium", confidence := "Certain",
          bypassDomain := some b, payload := some (kb.getD i ("", "")).2 }
      let r := emitBypasses directive kb bs
      (f :: r.1, r.2)

/-- The token loop of `_bypassCheckDirective`: skip keywords (tokens that
start with `'`) and the bare schemes `http:`/`https:`; match the rest
against the bypass domains. -/
def bypassCheckSrcs (directive : String) (kb : List (String × String))
    (bypassDomains : List String) : List String → List Finding × Option String
  | [] => ([], none)
  | src :: rest =>
    if pyStartsWith src '\'' || src = "http:" || src = "https:" then
      bypassCheckSrcs directive kb bypassDomains rest
    else
      let e := emitBypasses directive kb
        (bypassMatchDomainsToSrc src bypassDomains)
      match e.2 with
      | some err => (e.1, some err)
      | none =>
        let r := bypassCheckSrcs directive kb bypassDomains rest
        (e.1 ++ r.1, r.2)

/-- `_bypassCheckDirective` of `burp_csp_bypass.py`. -/
def bypassCheckDirective (csp : ContentSecurityPolicy) (directive : String)
    (knownBypasses : List (String × String)) : List Finding × Option String :=
  bypassCheckSrcs directive knownBypasses (knownBypasses.map Prod.fst)
    (effective csp directive)

/-- `knownBypassCheck` of `burp_csp_bypass.py`, over the catalog
`CSP_KNOWN_BYPASSES` (static configuration data, taken as a parameter);
an uncaught exception aborts the remaining directives. -/
def knownBypassCheck (catalog : List (String × List (String × String)))
    (csp : ContentSecurityPolicy) : List Finding × Option String :=
  match catalog with
  | [] => ([], none)
  | (directive, kb) :: rest =>
    let e := bypassCheckDirective csp directive kb
    match e.2 with
    | some err => (e.1, some err)
    | none =>
      let r := knownBypassCheck rest csp
      (e.1 ++ r.1, r.2)

/-- `parseContentSecurityPolicy`'s check sequence over one parsed policy:
the findings appended to `self.issues`, in call order, and the uncaught
exception of the known-bypass check if one is raised. -/
def analyzePolicy (catalog : List (String × List (String × String)))
    (csp : ContentSecurityPolicy) : List Finding × Option String :=
  (deprecatedHeaderCheck csp ++ (unsafeContentSourceCheck csp ++
    (wildcardContentSourceCheck csp ++ (insecureContentSourceCheck csp ++
      (missingDirectiveCheck csp ++ (weakDefaultSourceCheck csp ++
        (knownBypassCheck catalog csp).1))))),
   (knownBypassCheck catalog csp).2)

/-- `CSP_HEADERS` of `ContentSecurityPolicyScan`. -/
def CSP_HEADERS : List String :=
  ["content-security-policy", "x-content-security-policy", "x-webkit-csp"]

/-- `proccessHttpResponse` of `burp_csp_bypass.py` over the response's
header list: each CSP-family header is parsed and analyzed in turn; a parse
error or a check exception propagates, aborting the remaining headers, with
the findings appended so far kept. -/
def processHeaders (catalog : List (String × List (String × String))) :
    List (String × String) → List Finding × Option String
  | [] => ([], none)
  | (n, v) :: rest =>
    if CSP_HEADERS.contains (pyLower n) then
      match ContentSecurityPolicy.parse n v with
      | .error e => ([], some e)
      | .ok csp =>
        let a := analyzePolicy catalog csp
        match a.2 with
        | some e => (a.1, some e)
        | none =>
          let r := processHeaders catalog rest
          (a.1 ++ r.1, r.2)
    else processHeaders catalog rest

/-- `doPassiveScan` of `burp_csp_bypass.py`: `issues` is the instance's
accumulated `self.issues` list; a response (modelled by its header list,
nonempty exactly when `len(httpMessage.getResponse())` is nonzero) is
processed and the instance's whole issue list is returned.  The first
component is the new `self.issues`; the second is the uncaught exception,
if one was raised. -/
def doPassiveScan (catalog : List (String × List (String × String)))
    (issues : List Finding) (response : List (String × String)) :
    List Finding × Option String :=
  if response.isEmpty then (issues, none)
  else
    let r := processHeaders catalog response
    (issues ++ r.1, r.2)

/-- The lowercased directive name of a clause: the first whitespace-separated
word, when the clause has one. -/
def firstWordLower (c : String) : Option String :=
  (pyWords c).head?.map pyLower

/-- A clause whose directive name is not in the recognized set (the parse
failure condition). -/
def badClause (c : String) : Bool :=
  match pyWords c with
  | [] => false
  | name :: _ => !recognizedDirectives.contains (pyLower name)

/- Theorems -/

/-- `labelsMatch` is the positionwise lifting of `labelMatch`. -/
lemma labelsMatch_iff_forall₂ (ts bs : List String) :
    labelsMatch ts bs = true ↔
      List.Forall₂ (fun t b => labelMatch t b = true) ts bs := by
  induction ts generalizing bs with
  | nil => cases bs <;> simp [labelsMatch]
  | cons t ts ih =>
    cases bs with
    | nil => simp [labelsMatch]
    | cons b bs => simp [labelsMatch, Bool.and_eq_true, ih]

/-- One label matches another exactly when it is the wildcard or the two are
equal up to case. -/
lemma labelMatch_iff (t b : String) :
    labelMatch t b = true ↔ (t = "*" ∨ pyLower t = pyLower b) := by
  simp [labelMatch, Bool.or_eq_true, decide_eq_true_eq]

/-- C2: `csp_match_domains` returns true iff, after stripping an optional
scheme prefix ending in `://`, the token's dot-separated labels and the
bypass domain's labels have the same count and each pair matches (a token
label `*` matches any single bypass label, every other position matches
case-insensitively and exactly); and the claim's seven concrete examples
evaluate as stated. -/
theorem csp_match_domains_spec :
    (∀ (src : String) (labels : List String),
        csp_match_domains src labels = true ↔
          ((srcLabels src).length = labels.length ∧
            ∀ i (h₁ : i < (srcLabels src).length) (h₂ : i < labels.length),
              (srcLabels src).get ⟨i, h₁⟩ = "*" ∨
                pyLower ((srcLabels src).get ⟨i, h₁⟩) =
                  pyLower (labels.get ⟨i, h₂⟩))) ∧
    csp_match_domains "foo.bar.com" ["foo", "bar", "com"] = true ∧
    csp_match_domains "*.bar.com" ["foo", "bar", "com"] = true ∧
    csp_match_domains "ws://*.bar.com" ["foo", "bar", "com"] = true ∧
    csp_match_domains "*.googleapis.com" ["ajax", "googleapis", "com"] = true ∧
    csp_match_domains "foobar.com" ["foobar", "net"] = false ∧
    csp_match_domains "foobar.com" ["foo", "bar", "com"] = false ∧
    csp_match_domains "ws://*.foo.com" ["foo", "bar", "com"] = false := by
  refine ⟨fun src labels => ?_, by decide, by decide, by decide, by decide,
    by decide, by decide, by decide⟩
  rw [show csp_match_domains src labels =
        labelsMatch (srcLabels src) labels from rfl,
    labelsMatch_iff_forall₂, List.forall₂_iff_get]
  constructor
  · rintro ⟨hl, hg⟩
    exact ⟨hl, fun i h₁ h₂ => (labelMatch_iff _ _).mp (hg i h₁ h₂)⟩
  · rintro ⟨hl, hg⟩
    exact ⟨hl, fun i h₁ h₂ => (labelMatch_iff _ _).mpr (hg i h₁ h₂)⟩

/-- A key occurs in an association list exactly when `find?` on that key
returns an entry. -/
lemma anyKey_iff_find (m : List (String × List String)) (d : String) :
    m.any (fun p => p.1 = d) = true ↔
      ∃ ts, (m.find? (fun p => p.1 = d)).map Prod.snd = some ts := by
  induction m with
  | nil => simp
  | cons x xs ih =>
    by_cases h : x.1 = d
    · simp [List.find?, h]
    · simp [List.find?, h, ih]

/-- The membership test succeeds exactly when an explicit entry exists. -/
lemma hasDirective_iff_getExplicit (csp : ContentSecurityPolicy)
    (d : String) :
    hasDirective csp d = true ↔ ∃ ts, getExplicit csp d = some ts :=
  anyKey_iff_find csp.directives d

/-- C3: effective lookup returns the directive's own tokens when it is
explicit; otherwise exactly `default-src`'s tokens when the directive is not
in `NO_FALLBACK` and `default-src` is explicit; otherwise the empty list —
in particular an absent `NO_FALLBACK` directive never receives
`default-src`'s list. -/
theorem effective_lookup_spec (csp : ContentSecurityPolicy) (d : String) :
    (hasDirective csp d = true →
      ∃ ts, getExplicit csp d = some ts ∧ effective csp d = ts) ∧
    (hasDirective csp d = false → NO_FALLBACK.contains d = false →
      hasDirective csp DEFAULT_SRC = true →
      ∃ ts, getExplicit csp DEFAULT_SRC = some ts ∧ effective csp d = ts) ∧
    (hasDirective csp d = false →
      (NO_FALLBACK.contains d = true ∨ hasDirective csp DEFAULT_SRC = false) →
      effective csp d = []) := by
  have habs : hasDirective csp d = false → getExplicit csp d = none := by
    intro h
    cases hg : getExplicit csp d with
    | none => rfl
    | some ts =>
      rw [(hasDirective_iff_getExplicit csp d).mpr ⟨ts, hg⟩] at h
      cases h
  have habs' : hasDirective csp DEFAULT_SRC = false →
      getExplicit csp DEFAULT_SRC = none := by
    intro h
    cases hg : getExplicit csp DEFAULT_SRC with
    | none => rfl
    | some ts =>
      rw [(hasDirective_iff_getExplicit csp DEFAULT_SRC).mpr ⟨ts, hg⟩] at h
      cases h
  refine ⟨fun h => ?_, fun h hnf hdef => ?_, fun h hor => ?_⟩
  · obtain ⟨ts, hg⟩ := (hasDirective_iff_getExplicit csp d).mp h
    exact ⟨ts, hg, by unfold effective; rw [hg]⟩
  · obtain ⟨ts, hg⟩ := (hasDirective_iff_getExplicit csp DEFAULT_SRC).mp hdef
    exact ⟨ts, hg, by unfold effective; rw [habs h, hnf, hg]; rfl⟩
  · cases hor with
    | inl hnf => unfold effective; rw [habs h, hnf]; rfl
    | inr hdef => unfold effective; rw [habs h, habs' hdef]; cases hc : NO_FALLBACK.contains d <;> rfl

/-- String equality tests are symmetric. -/
lemma keyDecideComm (a b : String) : (decide (a = b)) = (decide (b = a)) :=
  decide_eq_decide.mpr eq_comm

/-- `insertReplace` adds exactly the inserted key to the key set. -/
lemma anyKey_insertReplace (m : List (String × List String))
    (k : String) (v : List String) (d : String) :
    (insertReplace m k v).any (fun p => p.1 = d) =
      (d = k || m.any (fun p => p.1 = d)) := by
  induction m with
  | nil =>
    simp only [insertReplace, List.any_cons, List.any_nil, Bool.or_false]
    exact keyDecideComm k d
  | cons x xs ih =>
    by_cases hk : x.1 = k
    · simp [insertReplace, hk, keyDecideComm d k, Bool.or_assoc]
    · simp only [insertReplace, if_neg hk, List.any_cons, ih]
      exact Bool.or_left_comm _ _ _

/-- `parseClauses` fails exactly when some clause's directive name is
unrecognized, whatever mapping it starts from. -/
lemma parseClauses_error_iff (cs : List String) :
    ∀ m : List (String × List String),
      (∃ e, parseClauses m cs = .error e) ↔ cs.any badClause = true := by
  induction cs with
  | nil => intro m; simp [parseClauses]
  | cons c cs ih =>
    intro m
    rw [List.any_cons]
    cases hw : pyWords c with
    | nil =>
      have hb : badClause c = false := by simp [badClause, hw]
      rw [hb]
      simpa [parseClauses, hw] using ih m
    | cons name toks =>
      by_cases hr : pyLower name ∈ recognizedDirectives
      · have hb : badClause c = false := by simp [badClause, hw, hr]
        rw [hb]
        simpa [parseClauses, hw, hr] using
          ih (insertReplace m (pyLower name) toks)
      · have hb : badClause c = true := by simp [badClause, hw, hr]
        rw [hb]
        simp [parseClauses, hw, hr]

/-- C7: constructing a `ContentSecurityPolicy` from a header fails with a
ParseError exactly when the header value holds a clause whose directive
token is not in the recognized directive set; the `Except` result makes
construction all-or-nothing (no policy value exists alongside an error). -/
theorem parse_error_iff (n v : String) :
    (∃ e, ContentSecurityPolicy.parse n v = .error e) ↔
      (clauses v).any badClause = true := by
  rw [← parseClauses_error_iff (clauses v) []]
  unfold ContentSecurityPolicy.parse
  cases h : parseClauses [] (clauses v) <;>
    simp [h, Except.map]

/-- Parsed key sets: a directive is a key of the parsed mapping exactly when
some clause of the header value names it (lowercased), whatever mapping the
parse starts from. -/
lemma parseClauses_anyKey (cs : List String) :
    ∀ m m' : List (String × List String), parseClauses m cs = .ok m' →
      ∀ d : String,
        (m'.any (fun p => p.1 = d) = true ↔
          (m.any (fun p => p.1 = d) = true ∨
            ∃ c ∈ cs, firstWordLower c = some d)) := by
  induction cs with
  | nil =>
    intro m m' h d
    cases h
    simp
  | cons c cs ih =>
    intro m m' h d
    cases hw : pyWords c with
    | nil =>
      have hfw : firstWordLower c = none := by simp [firstWordLower, hw]
      rw [parseClauses, hw] at h
      rw [ih m m' h d]
      simp [hfw]
    | cons name toks =>
      have hfw : firstWordLower c = some (pyLower name) := by
        simp [firstWordLower, hw]
      by_cases hr : pyLower name ∈ recognizedDirectives
      · simp only [parseClauses, hw] at h
        rw [if_pos (by simpa using hr)] at h
        rw [ih _ m' h d, anyKey_insertReplace]
        simp only [Bool.or_eq_true, decide_eq_true_eq, List.mem_cons, hfw]
        constructor
        · rintro ((hdk | hm) | ⟨c', hc', hf'⟩)
          · exact Or.inr ⟨c, Or.inl rfl, by rw [hfw, hdk]⟩
          · exact Or.inl hm
          · exact Or.inr ⟨c', Or.inr hc', hf'⟩
        · rintro (hm | ⟨c', hc', hf'⟩)
          · exact Or.inl (Or.inr hm)
          · cases hc' with
            | inl hcc =>
              subst hcc
              rw [hfw] at hf'
              exact Or.inl (Or.inl (Option.some.inj hf').symm)
            | inr hcc => exact Or.inr ⟨c', hcc, hf'⟩
      · simp only [parseClauses, hw] at h
        rw [if_neg (by simpa using hr)] at h
        cases h

/-- C4: for a parsed policy, the membership test is true exactly when the
raw header value holds an explicit clause naming the directive; a directive
whose effective list merely falls back to `default-src` is not a member. -/
theorem membership_iff_explicit (n v : String)
    (csp : ContentSecurityPolicy)
    (h : ContentSecurityPolicy.parse n v = .ok csp) (d : String) :
    hasDirective csp d = true ↔
      ∃ c ∈ clauses v, firstWordLower c = some d := by
  have hpc : parseClauses [] (clauses v) = .ok csp.directives := by
    unfold ContentSecurityPolicy.parse at h
    cases hp : parseClauses [] (clauses v) with
    | error e => rw [hp] at h; cases h
    | ok m => rw [hp] at h; cases h; rfl
  rw [show hasDirective csp d = csp.directives.any (fun p => p.1 = d)
      from rfl,
    parseClauses_anyKey (clauses v) [] csp.directives hpc d]
  simp

/-- Witness for C4 at the first test header: `script-src` has no explicit
clause there, so, by the theorem, it is not a member even though its
effective list falls back to `default-src`'s. -/
theorem membership_iff_explicit_witness :
    hasDirective
      { headerName := "Content-Security-Policy",
        directives :=
          [("default-src", ["'self'", "https://cdn.example.net"]),
           ("child-src", ["'none'"]), ("object-src", ["'none'"])] }
      "script-src" = false := by
  have h := membership_iff_explicit "Content-Security-Policy"
    "default-src 'self' https://cdn.example.net; child-src 'none'; object-src 'none'"
    { headerName := "Content-Security-Policy",
      directives :=
        [("default-src", ["'self'", "https://cdn.example.net"]),
         ("child-src", ["'none'"]), ("object-src", ["'none'"])] }
    rfl "script-src"
  have hno : ¬ ∃ c ∈ clauses
      "default-src 'self' https://cdn.example.net; child-src 'none'; object-src 'none'",
      firstWordLower c = some "script-src" := by decide
  exact Bool.eq_false_iff.mpr (fun hb => hno (h.mp hb))

/-- Folding boolean-or of a predicate over a list from any seed is the seed
or-ed with `any`. -/
lemma foldl_or_any {α : Type} (l : List α) (p : α → Bool) (b : Bool) :
    l.foldl (fun w t => w || p t) b = (b || l.any p) := by
  induction l generalizing b with
  | nil => simp
  | cons x xs ih => simp [List.foldl_cons, ih, Bool.or_assoc]

/-- C8: the weak-default-source rule emits nothing when every token of
`default-src`'s effective list is one of `'self'`, `'none'`, `https:`
(including the empty list), and exactly one Medium finding as soon as any
other token is present, however many there are. -/
theorem weak_default_source_spec (csp : ContentSecurityPolicy) :
    ((effective csp DEFAULT_SRC).all
        (fun t => [SELF, NONE, HTTPS].contains t) = true →
      weakDefaultSourceCheck csp = []) ∧
    ((effective csp DEFAULT_SRC).any
        (fun t => !([SELF, NONE, HTTPS].contains t)) = true →
      weakDefaultSourceCheck csp =
        [{ kind := .weakDefaultSource, directive := none,
           severity := "Medium", confidence := "Certain",
           bypassDomain := none, payload := none }]) := by
  unfold weakDefaultSourceCheck
  rw [foldl_or_any, Bool.false_or]
  constructor
  · intro hall
    have hany : (effective csp DEFAULT_SRC).any
        (fun t => !([SELF, NONE, HTTPS].contains t)) = false := by
      rw [Bool.eq_false_iff]
      intro hc
      obtain ⟨t, ht, hpt⟩ := List.any_eq_true.mp hc
      rw [List.all_eq_true] at hall
      rw [hall t ht] at hpt
      cases hpt
    rw [hany]
    rfl
  · intro hany
    rw [hany]
    rfl

/-- The key list of `insertReplace`: unchanged when the key is present,
extended by the key when it is new. -/
lemma keys_insertReplace (m : List (String × List String)) (k : String)
    (v : List String) :
    (insertReplace m k v).map Prod.fst =
      if m.any (fun p => p.1 = k) = true then m.map Prod.fst
      else m.map Prod.fst ++ [k] := by
  induction m with
  | nil => simp [insertReplace]
  | cons x xs ih =>
    by_cases hk : x.1 = k
    · simp [insertReplace, hk]
    · simp only [insertReplace, if_neg hk, List.map_cons, List.any_cons, ih]
      have hdk : (decide (x.1 = k)) = false := by simp [hk]
      rw [hdk, Bool.false_or]
      by_cases ha : xs.any (fun p => p.1 = k) = true <;> simp [ha]

/-- `insertReplace` preserves distinctness of the keys. -/
lemma keys_insertReplace_nodup (m : List (String × List String))
    (k : String) (v : List String)
    (h : (m.map Prod.fst).Nodup) :
    ((insertReplace m k v).map Prod.fst).Nodup := by
  rw [keys_insertReplace]
  by_cases ha : m.any (fun p => p.1 = k) = true
  · rw [if_pos ha]; exact h
  · rw [if_neg ha]
    rw [List.nodup_append]
    refine ⟨h, List.nodup_singleton k, ?_⟩
    intro a hma hk
    rw [List.mem_singleton] at hk
    subst hk
    obtain ⟨p, hp, hpa⟩ := List.mem_map.mp hma
    exact ha (List.any_eq_true.mpr ⟨p, hp, by simp [hpa]⟩)

/-- A successful parse keeps the mapping's keys distinct. -/
lemma parseClauses_keys_nodup (cs : List String) :
    ∀ m m' : List (String × List String), (m.map Prod.fst).Nodup →
      parseClauses m cs = .ok m' → (m'.map Prod.fst).Nodup := by
  induction cs with
  | nil =>
    intro m m' hm h
    cases h
    exact hm
  | cons c cs ih =>
    intro m m' hm h
    cases hw : pyWords c with
    | nil =>
      rw [parseClauses, hw] at h
      exact ih m m' hm h
    | cons name toks =>
      by_cases hr : pyLower name ∈ recognizedDirectives
      · simp only [parseClauses, hw] at h
        rw [if_pos (by simpa using hr)] at h
        exact ih _ m' (keys_insertReplace_nodup m (pyLower name) toks hm) h
      · simp only [parseClauses, hw] at h
        rw [if_neg (by simpa using hr)] at h
        cases h

/-- A successful parse determines the directive mapping. -/
lemma parse_ok_parseClauses (n v : String) (csp : ContentSecurityPolicy)
    (h : ContentSecurityPolicy.parse n v = .ok csp) :
    parseClauses [] (clauses v) = .ok csp.directives := by
  unfold ContentSecurityPolicy.parse at h
  cases hp : parseClauses [] (clauses v) with
  | error e => rw [hp] at h; cases h
  | ok m => rw [hp] at h; cases h; rfl

/-- C9: over a parsed policy the wildcard rule emits at most one finding per
directive, and emits one for a directive exactly when that directive is
explicitly specified and one of its own tokens contains `*`; fallback-only
directives never yield a wildcard finding. -/
theorem wildcard_source_spec (n v : String) (csp : ContentSecurityPolicy)
    (h : ContentSecurityPolicy.parse n v = .ok csp) :
    ((wildcardContentSourceCheck csp).map Finding.directive).Nodup ∧
    ∀ d : String,
      ((wildcardContentSourceCheck csp).any
          (fun f => f.directive = some d)) = true ↔
        ∃ ts, getExplicit csp d = some ts ∧ ts.any containsStar = true := by
  have hkeys : (csp.directives.map Prod.fst).Nodup :=
    parseClauses_keys_nodup (clauses v) [] csp.directives (by simp)
      (parse_ok_parseClauses n v csp h)
  constructor
  · rw [wildcardContentSourceCheck, List.map_map]
    rw [show ((Finding.directive ∘ fun p : String × List String =>
        ({ kind := .wildcardContentSource, directive := some p.1,
           severity := "Medium", confidence := "Certain",
           bypassDomain := none, payload := none } : Finding))) =
        (some ∘ Prod.fst) from rfl]
    rw [← List.map_map]
    have hsub : ((csp.directives.filter
        (fun p => p.2.any containsStar)).map Prod.fst).Nodup :=
      ((List.filter_sublist _).map Prod.fst).nodup hkeys
    exact hsub.map (Option.some_injective _)
  · intro d
    constructor
    · intro hl
      obtain ⟨f, hf, hfd⟩ := List.any_eq_true.mp hl
      obtain ⟨p, hpmem, hpf⟩ := List.mem_map.mp hf
      obtain ⟨hpm, hq⟩ := List.mem_filter.mp hpmem
      have hfd' : f.directive = some d := by simpa using hfd
      have hpd : p.1 = d := by
        rw [← hpf] at hfd'
        exact Option.some.inj hfd'
      obtain ⟨ts, hts⟩ := (anyKey_iff_find csp.directives d).mp
        (List.any_eq_true.mpr ⟨p, hpm, by simp [hpd]⟩)
      refine ⟨ts, hts, ?_⟩
      obtain ⟨y, hy, hyts⟩ := Option.map_eq_some'.mp hts
      have hyd : y.1 = d := by
        have := List.find?_some hy
        simpa using this
      have hyp : y = p :=
        List.inj_on_of_nodup_map hkeys (List.mem_of_find?_eq_some hy) hpm
          (hyd.trans hpd.symm)
      rw [← hyts, hyp]
      simpa using hq
    · rintro ⟨ts, hts, hstar⟩
      obtain ⟨y, hy, hyts⟩ := Option.map_eq_some'.mp hts
      have hyd : y.1 = d := by
        have := List.find?_some hy
        simpa using this
      refine List.any_eq_true.mpr ?_
      refine ⟨Finding.mk FindingKind.wildcardContentSource (some y.1)
        "Medium" "Certain" none none, ?_, by simp [hyd]⟩
      refine List.mem_map.mpr ⟨y, ?_, rfl⟩
      refine List.mem_filter.mpr ⟨List.mem_of_find?_eq_some hy, ?_⟩
      rw [hyts]
      simpa using hstar

/-- Witness for C9 at a concrete parsed policy `frame-src *`: the wildcard
rule reports `frame-src`. -/
theorem wildcard_source_spec_witness :
    (wildcardContentSourceCheck
      { headerName := "Content-Security-Policy",
        directives := [("frame-src", ["*"])] }).any
      (fun f => f.directive = some "frame-src") = true :=
  ((wildcard_source_spec "Content-Security-Policy" "frame-src *"
      { headerName := "Content-Security-Policy",
        directives := [("frame-src", ["*"])] } rfl).2 "frame-src").mpr
    ⟨["*"], rfl, by decide⟩

/-- `List.findIdx?` with the tuple-versus-list comparison finds nothing. -/
lemma findIdx_pyEqEntryLabels (kb : List (String × String))
    (labels : List String) :
    kb.findIdx? (fun e => pyEqEntryLabels e labels) = none := by
  induction kb with
  | nil => rfl
  | cons x xs ih =>
    rw [List.findIdx?_cons]
    simp [pyEqEntryLabels, ih]

/-- The known-bypass issue loop creates no finding: looking the matched
label list up among the `(domain, payload)` tuples raises a ValueError
before the first issue is created. -/
lemma emitBypasses_findings_nil (dir : String)
    (kb : List (String × String)) (bs : List (List String)) :
    (emitBypasses dir kb bs).1 = [] := by
  cases bs with
  | nil => rfl
  | cons b bs' =>
    simp [emitBypasses, pyIndexEntry, findIdx_pyEqEntryLabels]

/-- The known-bypass token loop creates no finding. -/
lemma bypassCheckSrcs_findings_nil (dir : String)
    (kb : List (String × String)) (doms : List String)
    (srcs : List String) :
    (bypassCheckSrcs dir kb doms srcs).1 = [] := by
  induction srcs with
  | nil => rfl
  | cons src rest ih =>
    rw [bypassCheckSrcs]
    by_cases hs : (pyStartsWith src '\'' || src = "http:" || src = "https:")
        = true
    · rw [if_pos hs]
      exact ih
    · rw [if_neg hs]
      cases he : (emitBypasses dir kb (bypassMatchDomainsToSrc src doms)).2
      · simpa [he, emitBypasses_findings_nil] using ih
      · simp [he, emitBypasses_findings_nil]

/-- The known-bypass rule as implemented never emits a finding. -/
lemma knownBypassCheck_findings_nil
    (catalog : List (String × List (String × String)))
    (csp : ContentSecurityPolicy) :
    (knownBypassCheck catalog csp).1 = [] := by
  induction catalog with
  | nil => rfl
  | cons entry rest ih =>
    rw [knownBypassCheck]
    cases he : (bypassCheckDirective csp entry.1 entry.2).2
    · simpa [he, bypassCheckDirective, bypassCheckSrcs_findings_nil] using ih
    · simp [he, bypassCheckDirective, bypassCheckSrcs_findings_nil]

/-- Every deprecated-header finding is Medium/Certain. -/
lemma mem_deprecatedHeaderCheck (csp : ContentSecurityPolicy) (f : Finding)
    (hf : f ∈ deprecatedHeaderCheck csp) :
    f.kind = FindingKind.deprecatedHeader ∧ f.severity = "Medium" ∧
      f.confidence = "Certain" := by
  unfold deprecatedHeaderCheck at hf
  split at hf
  · rw [List.mem_singleton] at hf
    subst hf
    exact ⟨rfl, rfl, rfl⟩
  · cases hf

/-- Every unsafe-content-source finding is High/Certain. -/
lemma mem_unsafeContentSourceCheck (csp : ContentSecurityPolicy)
    (f : Finding) (hf : f ∈ unsafeContentSourceCheck csp) :
    f.kind = FindingKind.unsafeContentSource ∧ f.severity = "High" ∧
      f.confidence = "Certain" := by
  unfold unsafeContentSourceCheck at hf
  obtain ⟨d, -, hdf⟩ := List.mem_map.mp hf
  subst hdf
  exact ⟨rfl, rfl, rfl⟩

/-- Every wildcard-content-source finding is Medium/Certain. -/
lemma mem_wildcardContentSourceCheck (csp : ContentSecurityPolicy)
    (f : Finding) (hf : f ∈ wildcardContentSourceCheck csp) :
    f.kind = FindingKind.wildcardContentSource ∧ f.severity = "Medium" ∧
      f.confidence = "Certain" := by
  unfold wildcardContentSourceCheck at hf
  obtain ⟨p, -, hpf⟩ := List.mem_map.mp hf
  subst hpf
  exact ⟨rfl, rfl, rfl⟩

/-- Every missing-directive finding is Medium/Certain. -/
lemma mem_missingDirectiveCheck (csp : ContentSecurityPolicy) (f : Finding)
    (hf : f ∈ missingDirectiveCheck csp) :
    f.kind = FindingKind.missingDirective ∧ f.severity = "Medium" ∧
      f.confidence = "Certain" := by
  unfold missingDirectiveCheck at hf
  obtain ⟨d, -, hdf⟩ := List.mem_map.mp hf
  subst hdf
  exact ⟨rfl, rfl, rfl⟩

/-- Every weak-default-source finding is Medium/Certain. -/
lemma mem_weakDefaultSourceCheck (csp : ContentSecurityPolicy) (f : Finding)
    (hf : f ∈ weakDefaultSourceCheck csp) :
    f.kind = FindingKind.weakDefaultSource ∧ f.severity = "Medium" ∧
      f.confidence = "Certain" := by
  simp only [weakDefaultSourceCheck] at hf
  split at hf
  · rw [List.mem_singleton] at hf
    subst hf
    exact ⟨rfl, rfl, rfl⟩
  · cases hf

/-- C10: every finding the analyzer produces has confidence Certain;
unsafe-content-source findings have severity High and findings of every
other kind have severity Medium. -/
theorem findings_severity_confidence
    (catalog : List (String × List (String × String)))
    (csp : ContentSecurityPolicy) :
    ∀ f ∈ (analyzePolicy catalog csp).1,
      f.confidence = "Certain" ∧
        f.severity = (if f.kind = FindingKind.unsafeContentSource
          then "High" else "Medium") := by
  intro f hf
  rw [show (analyzePolicy catalog csp).1 =
      deprecatedHeaderCheck csp ++ (unsafeContentSourceCheck csp ++
        (wildcardContentSourceCheck csp ++ (insecureContentSourceCheck csp ++
          (missingDirectiveCheck csp ++ (weakDefaultSourceCheck csp ++
            (knownBypassCheck catalog csp).1))))) from rfl,
    knownBypassCheck_findings_nil, List.append_nil] at hf
  rcases List.mem_append.mp hf with hd | hf1
  · obtain ⟨hk, hs, hc⟩ := mem_deprecatedHeaderCheck csp f hd
    rw [hk, hs, hc]
    exact ⟨rfl, rfl⟩
  rcases List.mem_append.mp hf1 with hu | hf2
  · obtain ⟨hk, hs, hc⟩ := mem_unsafeContentSourceCheck csp f hu
    rw [hk, hs, hc]
    exact ⟨rfl, rfl⟩
  rcases List.mem_append.mp hf2 with hw | hf3
  · obtain ⟨hk, hs, hc⟩ := mem_wildcardContentSourceCheck csp f hw
    rw [hk, hs, hc]
    exact ⟨rfl, rfl⟩
  rcases List.mem_append.mp hf3 with hins | hf4
  · simp [insecureContentSourceCheck] at hins
  rcases List.mem_append.mp hf4 with hm | hwk
  · obtain ⟨hk, hs, hc⟩ := mem_missingDirectiveCheck csp f hm
    rw [hk, hs, hc]
    exact ⟨rfl, rfl⟩
  obtain ⟨hk, hs, hc⟩ := mem_weakDefaultSourceCheck csp f hwk
  rw [hk, hs, hc]
  exact ⟨rfl, rfl⟩

/-- Witness for C10 at a concrete policy from a deprecated header: the
deprecated-header finding it produces is Certain and Medium. -/
theorem findings_severity_confidence_witness :
    (Finding.mk FindingKind.deprecatedHeader none "Medium" "Certain"
        none none).confidence = "Certain" ∧
    (Finding.mk FindingKind.deprecatedHeader none "Medium" "Certain"
        none none).severity =
      (if (Finding.mk FindingKind.deprecatedHeader none "Medium" "Certain"
          none none).kind = FindingKind.unsafeContentSource
        then "High" else "Medium") :=
  findings_severity_confidence []
    { headerName := "x-webkit-csp", directives := [] }
    (Finding.mk FindingKind.deprecatedHeader none "Medium" "Certain"
      none none) (by decide)

/-- C5 (amended): a CSP-family header that fails to parse contributes no
finding and no rule runs on a partial model, but the ParseError is not
caught anywhere in `proccessHttpResponse`: it propagates and aborts the
analysis of every remaining header of that response. -/
theorem parse_error_aborts
    (catalog : List (String × List (String × String)))
    (n v e : String) (rest : List (String × String))
    (hcsp : CSP_HEADERS.contains (pyLower n) = true)
    (herr : ContentSecurityPolicy.parse n v = .error e) :
    processHeaders catalog ((n, v) :: rest) = ([], some e) := by
  rw [processHeaders, if_pos (by simpa using hcsp), herr]

/-- Witness for C5's amended theorem at a concrete response: an invalid
first header makes processing stop with its ParseError. -/
theorem parse_error_aborts_witness :
    processHeaders []
      [("content-security-policy", "foobar-src 'none'"),
       ("content-security-policy", "script-src 'unsafe-eval'")] =
      ([], some "foobar-src") :=
  parse_error_aborts [] "content-security-policy" "foobar-src 'none'"
    "foobar-src" [("content-security-policy", "script-src 'unsafe-eval'")]
    (by decide) rfl

/-- Counterexample to C5 as stated: after the unparseable first header, the
second CSP header of the same response is never analyzed (alone it yields
findings; behind the bad header it yields none and the error escapes). -/
theorem parse_error_aborts_counterexample :
    (processHeaders []
        [("content-security-policy", "foobar-src 'none'"),
         ("content-security-policy", "script-src 'unsafe-eval'")]).1 = [] ∧
    (processHeaders []
        [("content-security-policy", "foobar-src 'none'"),
         ("content-security-policy", "script-src 'unsafe-eval'")]).2 =
      some "foobar-src" ∧
    (processHeaders []
        [("content-security-policy", "script-src 'unsafe-eval'")]).1 ≠ []
      := by
  refine ⟨rfl, rfl, ?_⟩
  decide

/-- C6 (amended): `doPassiveScan` appends the response's findings to the
scanner instance's persistent `issues` list and returns that whole list, so
the returned list equals exactly the response's own findings only when the
instance's accumulated list is empty. -/
theorem doPassiveScan_accumulates
    (catalog : List (String × List (String × String)))
    (issues : List Finding) (response : List (String × String)) :
    doPassiveScan catalog issues response =
      (issues ++ (doPassiveScan catalog [] response).1,
        (doPassiveScan catalog [] response).2) := by
  by_cases h : response.isEmpty <;> simp [doPassiveScan, h]

/-- Counterexample to C6 as stated: analyzing a response after an earlier
response with findings returns the earlier findings too, so the result is
not the same as analyzing it first. -/
theorem doPassiveScan_not_stateless :
    (doPassiveScan []
        (doPassiveScan [] [] [("x-webkit-csp", "default-src 'self'")]).1
        [("content-security-policy", "script-src 'unsafe-inline'")]).1 ≠
      (doPassiveScan [] []
        [("content-security-policy", "script-src 'unsafe-inline'")]).1 := by
  decide

/-- C1: at the failing input (directive `script-src`, source token
`ajax.googleapis.com`, catalog entry `("ajax.googleapis.com", payload)`)
the domain matcher does match, yet the known-bypass check emits no finding
and raises a ValueError: `knownBypasses.index(bypass)` searches the split
label list among the `(domain, payload)` tuples and never finds it. -/
theorem known_bypass_check_crashes :
    csp_match_domains "ajax.googleapis.com" ["ajax", "googleapis", "com"]
      = true ∧
    bypassMatchDomainsToSrc "ajax.googleapis.com" ["ajax.googleapis.com"] =
      [["ajax", "googleapis", "com"]] ∧
    knownBypassCheck [("script-src", [("ajax.googleapis.com", "payload")])]
      { headerName := "Content-Security-Policy",
        directives := [("script-src", ["ajax.googleapis.com"])] } =
      ([], some "ValueError") := by
  refine ⟨by decide, by decide, by decide⟩
